import Mathlib

/-!
# BloxMarket — verification of the vote-toggle and middleman-review logic

Shallow embedding of the parts of the BloxMarket backend that the frozen
claims are about:

* the vote toggle on votable resources (Trade / ForumPost / Event), §4.1 of
  the specification;
* `verificationController.submitApplication` and
  `verificationController.reviewApplication` (the middleman application
  workflow).

The document database is modelled as lists of records; `findById` becomes
`List.find?` over the id field and mongoose's `save()` on a fetched document
becomes an id-keyed replacement in the list.
-/

/-- Vote direction, the `direction` field of a vote request (`'up' | 'down'`). -/
inductive VoteDir where
  | up
  | down
deriving DecidableEq, Repr

/-- The vote-carrying part of a votable resource (Trade / ForumPost / Event):
two parallel arrays of voter user ids. -/
structure Votable where
  upvotes : List Nat
  downvotes : List Nat
deriving DecidableEq, Repr

/-- Modelled from the spec: the vote-toggle controllers for Trade, ForumPost
and Event are not among the provided source files (only their frontend
callers are), so this follows §4.1 of the specification word for word:
(1) look up the actor's membership in `upvotes`/`downvotes`;
(2) if the actor is in neither list, add them to the list matching the
direction; (3) if the actor is already in the matching list, remove them
(retraction); (4) if the actor is in the opposite list, remove them from it
and add them to the requested list (flip). The second component of the
result is the actor's resulting vote state (`up`/`down`/`null`). -/
def vote (r : Votable) (u : Nat) (d : VoteDir) : Votable × Option VoteDir :=
  match d with
  | .up =>
    if u ∈ r.upvotes then
      ({ r with upvotes := r.upvotes.erase u }, none)
    else if u ∈ r.downvotes then
      ({ r with downvotes := r.downvotes.erase u,
                upvotes := r.upvotes ++ [u] }, some .up)
    else
      ({ r with upvotes := r.upvotes ++ [u] }, some .up)
  | .down =>
    if u ∈ r.downvotes then
      ({ r with downvotes := r.downvotes.erase u }, none)
    else if u ∈ r.upvotes then
      ({ r with upvotes := r.upvotes.erase u,
                downvotes := r.downvotes ++ [u] }, some .down)
    else
      ({ r with downvotes := r.downvotes ++ [u] }, some .down)

/-- `MiddlemanApplication.status` enum: `'pending' | 'approved' | 'rejected'`. -/
inductive AppStatus where
  | pending
  | approved
  | rejected
deriving DecidableEq, Repr

/-- One entry of `User.role_history` (the object pushed by
`reviewApplication` on approval). Dates are modelled as a `Nat` clock. -/
structure RoleChange where
  old_role : String
  new_role : String
  changed_by : Nat
  changed_at : Nat
  reason : String
deriving DecidableEq, Repr

/-- The part of the `User` document touched by the verification controller. -/
structure User where
  id : Nat
  role : String
  role_history : List RoleChange
  middleman_requested : Bool
deriving DecidableEq, Repr

/-- A `MiddlemanApplication` document. `documents` holds
`VerificationDocument` ids; `reviewed_date` is a `Nat` clock value. -/
structure MiddlemanApplication where
  id : Nat
  user_id : Nat
  experience : String
  availability : String
  why_middleman : String
  referral_codes : Option String
  external_links : List String
  preferred_trade_types : List String
  documents : List Nat
  status : AppStatus
  reviewed_by : Option Nat
  reviewed_date : Option Nat
  rejection_reason : Option String
deriving DecidableEq, Repr

/-- The two collections the verification controller reads and writes. -/
structure DB where
  applications : List MiddlemanApplication
  users : List User
deriving DecidableEq, Repr

/-- `MiddlemanApplication.findById(id)`. -/
def findApp (db : DB) (id : Nat) : Option MiddlemanApplication :=
  db.applications.find? (fun a => a.id == id)

/-- `application.save()`: replace the document with the same id. -/
def saveApp (db : DB) (app : MiddlemanApplication) : DB :=
  { db with applications :=
      db.applications.map (fun a => if a.id == app.id then app else a) }

/-- `User.findById(id)`. -/
def findUser (db : DB) (id : Nat) : Option User :=
  db.users.find? (fun u => u.id == id)

/-- `user.save()`: replace the document with the same id. -/
def saveUser (db : DB) (user : User) : DB :=
  { db with users :=
      db.users.map (fun u => if u.id == user.id then user else u) }

/-- JavaScript falsiness of the `reason` body field: absent or empty string. -/
def reasonMissing : Option String → Bool
  | none => true
  | some s => s == ""

/-- Outcome of `reviewApplication` (HTTP status + `error`/`message` string). -/
inductive ReviewOutcome where
  | badRequest (msg : String)
  | notFound (msg : String)
  | ok (msg : String)
deriving DecidableEq, Repr

/-- `verificationController.reviewApplication`: validates the action and the
rejection reason, loads the application, rejects non-pending applications as
a conflict, saves the new application status, then loads the applicant and
updates role / role history / `middleman_requested`. -/
def reviewApplication (applicationId : Nat) (action : String)
    (reason : Option String) (adminId : Nat) (now : Nat) (db : DB) :
    ReviewOutcome × DB :=
  if ¬ (action = "approve" ∨ action = "reject") then
    (.badRequest "Invalid action", db)
  else if action = "reject" ∧ reasonMissing reason then
    (.badRequest "Rejection reason is required", db)
  else
    match findApp db applicationId with
    | none => (.notFound "Application not found", db)
    | some application =>
      if application.status ≠ .pending then
        (.badRequest "Application has already been processed", db)
      else
        let application :=
          { application with
            status := if action = "approve" then .approved else .rejected,
            reviewed_by := some adminId,
            reviewed_date := some now,
            rejection_reason :=
              if action = "reject" then reason
              else application.rejection_reason }
        let db := saveApp db application
        match findUser db application.user_id with
        | none => (.notFound "User not found", db)
        | some user =>
          let user :=
            if action = "approve" then
              let user := { user with role := "middleman" }
              { user with role_history := user.role_history ++
                  [{ old_role := user.role,
                     new_role := "middleman",
                     changed_by := adminId,
                     changed_at := now,
                     reason := "Middleman application approved" }] }
            else user
          let user := { user with middleman_requested := false }
          (.ok (if action = "approve"
                then "Application approved successfully"
                else "Application rejected successfully"),
           saveUser db user)

/-- The filter of `MiddlemanApplication.findOne({ user_id, status: 'pending' })`. -/
def isPendingFor (userId : Nat) (a : MiddlemanApplication) : Bool :=
  a.user_id == userId && decide (a.status = AppStatus.pending)

/-- Truthiness of the `existingApplication` lookup in `submitApplication`. -/
def hasPendingApplication (db : DB) (userId : Nat) : Bool :=
  db.applications.any (isPendingFor userId)

/-- Number of pending applications a user holds. -/
def pendingCount (db : DB) (userId : Nat) : Nat :=
  db.applications.countP (isPendingFor userId)

/-- The invariant of §3: a user may not hold two simultaneously pending
applications. -/
def atMostOnePending (db : DB) : Prop :=
  ∀ uid : Nat, pendingCount db uid ≤ 1

/-- Outcome of `submitApplication`. -/
inductive SubmitOutcome where
  | badRequest (msg : String)
  | created (applicationId : Nat)
deriving DecidableEq, Repr

/-- `'a,b'.split(',').map(s => s.trim())` applied to an optional form field,
defaulting to `[]` when the field is absent. -/
def splitTrim : Option String → List String
  | none => []
  | some s => (s.splitOn ",").map (fun t => t.trim)

/-- `verificationController.submitApplication`: rejects a second pending
application, validates required fields, creates the application (with the
fresh id `newId` that the database would generate and the ids of the saved
uploaded documents), and sets the user's `middleman_requested` flag. -/
def submitApplication (userId : Nat)
    (experience availability why_middleman : String)
    (referral_codes external_links preferred_trade_types : Option String)
    (documents : List Nat) (newId : Nat) (db : DB) : SubmitOutcome × DB :=
  if hasPendingApplication db userId then
    (.badRequest "You already have a pending middleman application", db)
  else if experience = "" ∨ availability = "" ∨ why_middleman = "" then
    (.badRequest "Missing required fields", db)
  else
    let application : MiddlemanApplication :=
      { id := newId,
        user_id := userId,
        experience := experience,
        availability := availability,
        why_middleman := why_middleman,
        referral_codes := referral_codes,
        external_links := splitTrim external_links,
        preferred_trade_types := splitTrim preferred_trade_types,
        documents := documents,
        status := .pending,
        reviewed_by := none,
        reviewed_date := none,
        rejection_reason := none }
    let db := { db with applications := db.applications ++ [application] }
    let db := { db with users := db.users.map (fun u =>
        if u.id == userId then { u with middleman_requested := true } else u) }
    (.created newId, db)

/-- A concrete applicant, used to exercise the theorems on closed inputs. -/
def user0 : User :=
  { id := 10, role := "user", role_history := [], middleman_requested := true }

/-- A concrete pending application by `user0`. -/
def app0 : MiddlemanApplication :=
  { id := 1, user_id := 10, experience := "traded for two years",
    availability := "evenings", why_middleman := "to help",
    referral_codes := none, external_links := [], preferred_trade_types := [],
    documents := [], status := .pending, reviewed_by := none,
    reviewed_date := none, rejection_reason := none }

/-- A database holding `app0` and `user0`. -/
def db0 : DB := { applications := [app0], users := [user0] }

/-- A concrete already-approved application. -/
def app1 : MiddlemanApplication := { app0 with id := 2, status := .approved }

/-- A database holding the already-approved `app1`. -/
def db1 : DB := { applications := [app1], users := [user0] }

/-- A concrete pending application whose applicant (user 77) does not exist. -/
def app2 : MiddlemanApplication := { app0 with id := 3, user_id := 77 }

/-- A database holding `app2` but no user with id 77. -/
def db2 : DB := { applications := [app2], users := [user0] }

/-- A database with no applications. -/
def db3 : DB := { applications := [], users := [user0] }

/-! ## Helper lemmas about the document-store operations -/

/-- `find?` after an id-keyed replacement finds the replacement. -/
theorem find?_key_replace {α : Type} (key : α → Nat) (b : α) (id : Nat) (a : α)
    (hab : key b = key a) :
    ∀ l : List α, l.find? (fun x => key x == id) = some a →
      (l.map (fun x => if key x == key b then b else x)).find?
          (fun x => key x == id) = some b := by
  intro l
  induction l with
  | nil => intro h; simp at h
  | cons x xs ih =>
    intro h
    by_cases hx : key x = id
    · have hpx : ((fun y => key y == id) x) = true := by simpa using hx
      rw [List.find?_cons_of_pos (p := fun y => key y == id) _ hpx] at h
      obtain rfl : x = a := by simpa using h
      simp only [List.map_cons]
      have hfx : (if (key x == key b) = true then b else x) = b := by
        rw [if_pos]
        simp [hab]
      rw [hfx]
      exact List.find?_cons_of_pos (p := fun y => key y == id) _ (by simp [hab, hx])
    · have hpx : ¬ ((fun y => key y == id) x) = true := by simpa using hx
      rw [List.find?_cons_of_neg (p := fun y => key y == id) _ hpx] at h
      have ha : key a = id := by simpa using List.find?_some h
      simp only [List.map_cons]
      have hfx : (if (key x == key b) = true then b else x) = x := by
        rw [if_neg]
        simp only [beq_iff_eq, hab, ha]
        exact hx
      rw [hfx]
      rw [List.find?_cons_of_neg (p := fun y => key y == id) _ hpx]
      exact ih h

/-- Saving an application with the same id as a found one makes it findable. -/
theorem findApp_saveApp (db : DB) (id : Nat) (a b : MiddlemanApplication)
    (hab : b.id = a.id) (hfind : findApp db id = some a) :
    findApp (saveApp db b) id = some b :=
  find?_key_replace (α := MiddlemanApplication) (fun x => x.id) b id a hab
    db.applications hfind

/-- Saving a user with the same id as a found one makes them findable. -/
theorem findUser_saveUser (db : DB) (id : Nat) (a b : User)
    (hab : b.id = a.id) (hfind : findUser db id = some a) :
    findUser (saveUser db b) id = some b :=
  find?_key_replace (α := User) (fun x => x.id) b id a hab db.users hfind

/-- Saving a user does not change the applications collection. -/
theorem findApp_saveUser (db : DB) (u : User) (id : Nat) :
    findApp (saveUser db u) id = findApp db id := rfl

/-- Saving an application does not change the users collection. -/
theorem findUser_saveApp (db : DB) (a : MiddlemanApplication) (id : Nat) :
    findUser (saveApp db a) id = findUser db id := rfl

/-! ## Branch-reduction lemmas for `reviewApplication` -/

/-- An action other than approve/reject is rejected up front. -/
theorem review_invalid_eq (db : DB) (appId adminId now : Nat) (action : String)
    (reason : Option String) (hact : ¬ (action = "approve" ∨ action = "reject")) :
    reviewApplication appId action reason adminId now db =
      (.badRequest "Invalid action", db) := by
  unfold reviewApplication
  rw [if_pos hact]

/-- Rejecting without a reason fails validation before any read or write. -/
theorem review_no_reason_eq (db : DB) (appId adminId now : Nat)
    (reason : Option String) (hre : reasonMissing reason = true) :
    reviewApplication appId "reject" reason adminId now db =
      (.badRequest "Rejection reason is required", db) := by
  unfold reviewApplication
  simp [hre]

/-- Reviewing a nonexistent application yields not-found and no write. -/
theorem review_app_missing_eq (db : DB) (appId adminId now : Nat)
    (action : String) (reason : Option String)
    (hact : action = "approve" ∨ action = "reject")
    (hre : ¬ (action = "reject" ∧ reasonMissing reason = true))
    (hfind : findApp db appId = none) :
    reviewApplication appId action reason adminId now db =
      (.notFound "Application not found", db) := by
  rcases hact with h | h <;> subst h
  · unfold reviewApplication
    simp [hfind]
  · have hre' : reasonMissing reason = false := by
      cases h : reasonMissing reason
      · rfl
      · exact absurd ⟨rfl, h⟩ hre
    unfold reviewApplication
    simp [hfind, hre']

/-- Reviewing a non-pending application is rejected as a conflict, unchanged. -/
theorem review_conflict_eq (db : DB) (appId adminId now : Nat)
    (action : String) (reason : Option String) (app : MiddlemanApplication)
    (hfind : findApp db appId = some app)
    (hnp : app.status ≠ AppStatus.pending)
    (hact : action = "approve" ∨ action = "reject")
    (hre : ¬ (action = "reject" ∧ reasonMissing reason = true)) :
    reviewApplication appId action reason adminId now db =
      (.badRequest "Application has already been processed", db) := by
  rcases hact with h | h <;> subst h
  · unfold reviewApplication
    simp [hfind, hnp]
  · have hre' : reasonMissing reason = false := by
      cases h : reasonMissing reason
      · rfl
      · exact absurd ⟨rfl, h⟩ hre
    unfold reviewApplication
    simp [hfind, hnp, hre']

/-- Full reduction of a successful approval. -/
theorem review_approve_eq (db : DB) (appId adminId now : Nat)
    (reason : Option String) (app : MiddlemanApplication) (user : User)
    (hfind : findApp db appId = some app)
    (hpend : app.status = AppStatus.pending)
    (huser : findUser db app.user_id = some user) :
    reviewApplication appId "approve" reason adminId now db =
      (.ok "Application approved successfully",
       saveUser
         (saveApp db
           { app with
             status := .approved, reviewed_by := some adminId,
             reviewed_date := some now })
         { user with
           role := "middleman",
           role_history := user.role_history ++
             [{ old_role := "middleman", new_role := "middleman",
                changed_by := adminId, changed_at := now,
                reason := "Middleman application approved" }],
           middleman_requested := false }) := by
  unfold reviewApplication
  simp only [hfind, findUser_saveApp, huser, hpend]
  simp

/-- Full reduction of a successful rejection. -/
theorem review_reject_eq (db : DB) (appId adminId now : Nat)
    (reason : Option String) (app : MiddlemanApplication) (user : User)
    (hre : reasonMissing reason = false)
    (hfind : findApp db appId = some app)
    (hpend : app.status = AppStatus.pending)
    (huser : findUser db app.user_id = some user) :
    reviewApplication appId "reject" reason adminId now db =
      (.ok "Application rejected successfully",
       saveUser
         (saveApp db
           { app with
             status := .rejected, reviewed_by := some adminId,
             reviewed_date := some now, rejection_reason := reason })
         { user with middleman_requested := false }) := by
  unfold reviewApplication
  simp only [hre, hfind, findUser_saveApp, huser, hpend]
  simp

/-- Approval path when the applicant's user record is missing: the
application update has already been saved when not-found is returned. -/
theorem review_approve_user_missing_eq (db : DB) (appId adminId now : Nat)
    (reason : Option String) (app : MiddlemanApplication)
    (hfind : findApp db appId = some app)
    (hpend : app.status = AppStatus.pending)
    (huser : findUser db app.user_id = none) :
    reviewApplication appId "approve" reason adminId now db =
      (.notFound "User not found",
       saveApp db
         { app with
           status := .approved, reviewed_by := some adminId,
           reviewed_date := some now }) := by
  unfold reviewApplication
  simp only [hfind, findUser_saveApp, huser, hpend]
  simp

/-- Rejection path when the applicant's user record is missing. -/
theorem review_reject_user_missing_eq (db : DB) (appId adminId now : Nat)
    (reason : Option String) (app : MiddlemanApplication)
    (hre : reasonMissing reason = false)
    (hfind : findApp db appId = some app)
    (hpend : app.status = AppStatus.pending)
    (huser : findUser db app.user_id = none) :
    reviewApplication appId "reject" reason adminId now db =
      (.notFound "User not found",
       saveApp db
         { app with
           status := .rejected, reviewed_by := some adminId,
           reviewed_date := some now, rejection_reason := reason }) := by
  unfold reviewApplication
  simp only [hre, hfind, findUser_saveApp, huser, hpend]
  simp

/-! ## Helper lemma for the vote toggle -/

/-- Erasing a freshly appended voter restores the original list. -/
theorem vote_erase_append (l : List Nat) (u : Nat) (h : u ∉ l) :
    (l ++ [u]).erase u = l := by
  rw [List.erase_append_right _ h, List.erase_cons_head, List.append_nil]

/-! ## Claims about the vote toggle (C2, C3) -/

/-- Claim C2, as frozen, is false: starting from a state in which the actor
is already in the upvotes list, voting up twice retracts the vote and then
re-casts it, so the actor ends up recorded in `upvotes` with resulting vote
state `up`, not with no vote. Concrete counterexample: user 7 on a resource
whose upvotes list is `[7]`. -/
theorem C2_counterexample :
    7 ∈ ((vote (vote (Votable.mk [7] []) 7 .up).1 7 .up).1).upvotes ∧
    (vote (vote (Votable.mk [7] []) 7 .up).1 7 .up).2 = some .up := by
  decide

/-- Claim C2 (amended): for every user `u` and votable resource `r` whose
vote lists are duplicate-free, if `u` is not already in `r`'s upvotes list,
then applying `vote(r, u, 'up')` twice in succession leaves `u` a member of
neither the upvotes list nor the downvotes list, and the second operation
reports the resulting vote state as null. -/
theorem C2_vote_up_twice_amended (r : Votable) (u : Nat)
    (hnd : r.downvotes.Nodup) (hu : u ∉ r.upvotes) :
    u ∉ ((vote (vote r u .up).1 u .up).1).upvotes ∧
    u ∉ ((vote (vote r u .up).1 u .up).1).downvotes ∧
    (vote (vote r u .up).1 u .up).2 = none := by
  by_cases hd : u ∈ r.downvotes
  · simp [vote, hu, hd, vote_erase_append _ _ hu, hnd.not_mem_erase]
  · simp [vote, hu, hd, vote_erase_append _ _ hu]

/-- Witness for the amended C2: user 3 on a fresh resource. -/
theorem C2_vote_up_twice_amended_witness :
    ([] : List Nat).Nodup ∧ 3 ∉ ([] : List Nat) ∧
    (3 ∉ ((vote (vote (Votable.mk [] []) 3 .up).1 3 .up).1).upvotes ∧
     3 ∉ ((vote (vote (Votable.mk [] []) 3 .up).1 3 .up).1).downvotes ∧
     (vote (vote (Votable.mk [] []) 3 .up).1 3 .up).2 = none) :=
  ⟨by decide, by decide,
   C2_vote_up_twice_amended (Votable.mk [] []) 3 (by decide) (by decide)⟩

/-- Claim C3: for every user `u` and votable resource `r` whose vote lists
are duplicate-free and record at most one vote by `u`, after
`vote(r, u, 'up')` followed by `vote(r, u, 'down')`, `u` is a member of the
downvotes list and not a member of the upvotes list. -/
theorem C3_vote_flip (r : Votable) (u : Nat)
    (hnu : r.upvotes.Nodup) (hnd : r.downvotes.Nodup)
    (hboth : ¬ (u ∈ r.upvotes ∧ u ∈ r.downvotes)) :
    u ∈ ((vote (vote r u .up).1 u .down).1).downvotes ∧
    u ∉ ((vote (vote r u .up).1 u .down).1).upvotes := by
  by_cases hu : u ∈ r.upvotes
  · have hd : u ∉ r.downvotes := fun hd => hboth ⟨hu, hd⟩
    simp [vote, hu, hd, hnu.not_mem_erase]
  · by_cases hd : u ∈ r.downvotes
    · simp [vote, hu, hd, hnd.not_mem_erase, vote_erase_append _ _ hu]
    · simp [vote, hu, hd, vote_erase_append _ _ hu]

/-- Witness for C3: user 3 on a resource with unrelated voters 1 and 2. -/
theorem C3_vote_flip_witness :
    ([1] : List Nat).Nodup ∧ ([2] : List Nat).Nodup ∧
    ¬ (3 ∈ ([1] : List Nat) ∧ 3 ∈ ([2] : List Nat)) ∧
    (3 ∈ ((vote (vote (Votable.mk [1] [2]) 3 .up).1 3 .down).1).downvotes ∧
     3 ∉ ((vote (vote (Votable.mk [1] [2]) 3 .up).1 3 .down).1).upvotes) :=
  ⟨by decide, by decide, by decide,
   C3_vote_flip (Votable.mk [1] [2]) 3 (by decide) (by decide) (by decide)⟩

/-! ## Claims about `reviewApplication` (C1, C4, C5, C6, C8, C9, C10) -/

/-- Claim C1: approving a pending application whose applicant exists sets
the application status to `approved`, overwrites the applicant's role with
`middleman`, appends exactly one entry to the applicant's role history, and
clears the applicant's `middleman_requested` flag. -/
theorem C1_review_approve_updates (db : DB) (appId adminId now : Nat)
    (reason : Option String) (app : MiddlemanApplication) (user : User)
    (hfind : findApp db appId = some app)
    (hpend : app.status = AppStatus.pending)
    (huser : findUser db app.user_id = some user) :
    (reviewApplication appId "approve" reason adminId now db).1 =
        .ok "Application approved successfully" ∧
    (∃ a, findApp (reviewApplication appId "approve" reason adminId now db).2
        appId = some a ∧ a.status = AppStatus.approved) ∧
    (∃ u e, findUser (reviewApplication appId "approve" reason adminId now db).2
        app.user_id = some u ∧
      u.role = "middleman" ∧
      u.role_history = user.role_history ++ [e] ∧
      u.middleman_requested = false) := by
  rw [review_approve_eq db appId adminId now reason app user hfind hpend huser]
  refine ⟨rfl, ⟨_, findApp_saveApp db appId app _ rfl hfind, rfl⟩,
          ⟨_, _, findUser_saveUser _ app.user_id user _ rfl huser, rfl, rfl, rfl⟩⟩

/-- Witness for C1: approving `app0` in `db0`. -/
theorem C1_review_approve_updates_witness :
    findApp db0 1 = some app0 ∧ app0.status = AppStatus.pending ∧
    findUser db0 app0.user_id = some user0 ∧
    ((reviewApplication 1 "approve" none 99 5 db0).1 =
        .ok "Application approved successfully" ∧
     (∃ a, findApp (reviewApplication 1 "approve" none 99 5 db0).2 1 = some a ∧
        a.status = AppStatus.approved) ∧
     (∃ u e, findUser (reviewApplication 1 "approve" none 99 5 db0).2
        app0.user_id = some u ∧
       u.role = "middleman" ∧
       u.role_history = user0.role_history ++ [e] ∧
       u.middleman_requested = false)) :=
  ⟨rfl, rfl, rfl,
   C1_review_approve_updates db0 1 99 5 none app0 user0 rfl rfl rfl⟩

/-- Claim C4: a well-formed review call (valid action, and a reason when
rejecting) on an application that is no longer pending returns the conflict
error and leaves the database unchanged; in particular this is what a second
review call gets immediately after a successful one. -/
theorem C4_review_conflict (db : DB) (appId adminId now : Nat)
    (action : String) (reason : Option String) (app : MiddlemanApplication)
    (hfind : findApp db appId = some app)
    (hnp : app.status ≠ AppStatus.pending)
    (hact : action = "approve" ∨ action = "reject")
    (hre : ¬ (action = "reject" ∧ reasonMissing reason = true)) :
    reviewApplication appId action reason adminId now db =
      (.badRequest "Application has already been processed", db) :=
  review_conflict_eq db appId adminId now action reason app hfind hnp hact hre

/-- Witness for C4: re-reviewing the already-approved `app1` in `db1`. -/
theorem C4_review_conflict_witness :
    findApp db1 2 = some app1 ∧ app1.status ≠ AppStatus.pending ∧
    ("approve" = "approve" ∨ "approve" = "reject") ∧
    ¬ ("approve" = "reject" ∧ reasonMissing none = true) ∧
    reviewApplication 2 "approve" none 99 5 db1 =
      (.badRequest "Application has already been processed", db1) :=
  ⟨rfl, by decide, Or.inl rfl, by decide,
   C4_review_conflict db1 2 99 5 "approve" none app1 rfl (by decide)
     (Or.inl rfl) (by decide)⟩

/-- Claim C5: rejecting with a missing or empty reason fails validation and
modifies nothing: the database is returned unchanged, so the application is
still its pending self. -/
theorem C5_reject_requires_reason (db : DB) (appId adminId now : Nat)
    (reason : Option String) (app : MiddlemanApplication)
    (hre : reasonMissing reason = true)
    (hfind : findApp db appId = some app)
    (hpend : app.status = AppStatus.pending) :
    (reviewApplication appId "reject" reason adminId now db).1 =
        .badRequest "Rejection reason is required" ∧
    (reviewApplication appId "reject" reason adminId now db).2 = db ∧
    (∃ a, findApp (reviewApplication appId "reject" reason adminId now db).2
        appId = some a ∧ a.status = AppStatus.pending) := by
  rw [review_no_reason_eq db appId adminId now reason hre]
  exact ⟨rfl, rfl, app, hfind, hpend⟩

/-- Witness for C5: rejecting `app0` in `db0` without a reason. -/
theorem C5_reject_requires_reason_witness :
    reasonMissing none = true ∧ findApp db0 1 = some app0 ∧
    app0.status = AppStatus.pending ∧
    ((reviewApplication 1 "reject" none 99 5 db0).1 =
        .badRequest "Rejection reason is required" ∧
     (reviewApplication 1 "reject" none 99 5 db0).2 = db0 ∧
     (∃ a, findApp (reviewApplication 1 "reject" none 99 5 db0).2 1 = some a ∧
        a.status = AppStatus.pending)) :=
  ⟨rfl, rfl, rfl,
   C5_reject_requires_reason db0 1 99 5 none app0 rfl rfl rfl⟩

/-- Claim C6: reviewing a pending application whose applicant no longer
exists returns not-found, but only after the application has already been
saved with its new non-pending status; the users collection is untouched and
the application's prior state is not restored. -/
theorem C6_user_missing_after_save (db : DB) (appId adminId now : Nat)
    (action : String) (reason : Option String) (app : MiddlemanApplication)
    (hfind : findApp db appId = some app)
    (hpend : app.status = AppStatus.pending)
    (hact : action = "approve" ∨ action = "reject")
    (hre : ¬ (action = "reject" ∧ reasonMissing reason = true))
    (huser : findUser db app.user_id = none) :
    (reviewApplication appId action reason adminId now db).1 =
        .notFound "User not found" ∧
    (∃ a, findApp (reviewApplication appId action reason adminId now db).2
        appId = some a ∧
      a.status = (if action = "approve" then AppStatus.approved
                  else AppStatus.rejected) ∧
      a.status ≠ AppStatus.pending) ∧
    (reviewApplication appId action reason adminId now db).2.users =
      db.users := by
  rcases hact with h | h <;> subst h
  · rw [review_approve_user_missing_eq db appId adminId now reason app
      hfind hpend huser]
    exact ⟨rfl, ⟨_, findApp_saveApp db appId app _ rfl hfind, by simp, by simp⟩,
      rfl⟩
  · have hre' : reasonMissing reason = false := by
      cases h : reasonMissing reason
      · rfl
      · exact absurd ⟨rfl, h⟩ hre
    rw [review_reject_user_missing_eq db appId adminId now reason app
      hre' hfind hpend huser]
    exact ⟨rfl, ⟨_, findApp_saveApp db appId app _ rfl hfind, by simp, by simp⟩,
      rfl⟩

/-- Witness for C6: approving `app2` in `db2`, whose applicant 77 is gone. -/
theorem C6_user_missing_after_save_witness :
    findApp db2 3 = some app2 ∧ app2.status = AppStatus.pending ∧
    ("approve" = "approve" ∨ "approve" = "reject") ∧
    ¬ ("approve" = "reject" ∧ reasonMissing none = true) ∧
    findUser db2 app2.user_id = none ∧
    ((reviewApplication 3 "approve" none 99 5 db2).1 =
        .notFound "User not found" ∧
     (∃ a, findApp (reviewApplication 3 "approve" none 99 5 db2).2 3 = some a ∧
       a.status = (if "approve" = "approve" then AppStatus.approved
                   else AppStatus.rejected) ∧
       a.status ≠ AppStatus.pending) ∧
     (reviewApplication 3 "approve" none 99 5 db2).2.users = db2.users) :=
  ⟨rfl, rfl, Or.inl rfl, by decide, rfl,
   C6_user_missing_after_save db2 3 99 5 "approve" none app2 rfl rfl
     (Or.inl rfl) (by decide) rfl⟩

/-- Claim C8: rejecting a pending application with a non-empty reason (for
an applicant who exists) marks the application `rejected`, stores the
supplied reason as `rejection_reason`, and leaves the applicant's role
exactly as it was. -/
theorem C8_reject_stores_reason_keeps_role (db : DB) (appId adminId now : Nat)
    (reason : Option String) (app : MiddlemanApplication) (user : User)
    (hre : reasonMissing reason = false)
    (hfind : findApp db appId = some app)
    (hpend : app.status = AppStatus.pending)
    (huser : findUser db app.user_id = some user) :
    (∃ a, findApp (reviewApplication appId "reject" reason adminId now db).2
        appId = some a ∧
      a.status = AppStatus.rejected ∧ a.rejection_reason = reason) ∧
    (∃ u, findUser (reviewApplication appId "reject" reason adminId now db).2
        app.user_id = some u ∧ u.role = user.role) := by
  rw [review_reject_eq db appId adminId now reason app user hre hfind hpend
    huser]
  exact ⟨⟨_, findApp_saveApp db appId app _ rfl hfind, rfl, rfl⟩,
         ⟨_, findUser_saveUser _ app.user_id user _ rfl huser, rfl⟩⟩

/-- Witness for C8: rejecting `app0` in `db0` with a concrete reason. -/
theorem C8_reject_stores_reason_keeps_role_witness :
    reasonMissing (some "not enough vouches") = false ∧
    findApp db0 1 = some app0 ∧ app0.status = AppStatus.pending ∧
    findUser db0 app0.user_id = some user0 ∧
    ((∃ a, findApp
        (reviewApplication 1 "reject" (some "not enough vouches") 99 5 db0).2
        1 = some a ∧
      a.status = AppStatus.rejected ∧
      a.rejection_reason = some "not enough vouches") ∧
     (∃ u, findUser
        (reviewApplication 1 "reject" (some "not enough vouches") 99 5 db0).2
        app0.user_id = some u ∧ u.role = user0.role)) :=
  ⟨rfl, rfl, rfl, rfl,
   C8_reject_stores_reason_keeps_role db0 1 99 5 (some "not enough vouches")
     app0 user0 rfl rfl rfl rfl⟩

/-- Claim C9: the applicant's `middleman_requested` flag is cleared on both
review outcomes — the assignment sits outside the `action === 'approve'`
branch — so a successful rejection clears it exactly as an approval does. -/
theorem C9_review_clears_requested_flag (db : DB) (appId adminId now : Nat)
    (reason : Option String) (app : MiddlemanApplication) (user : User)
    (hre : reasonMissing reason = false)
    (hfind : findApp db appId = some app)
    (hpend : app.status = AppStatus.pending)
    (huser : findUser db app.user_id = some user) :
    (∃ u, findUser (reviewApplication appId "reject" reason adminId now db).2
        app.user_id = some u ∧ u.middleman_requested = false) ∧
    (∃ u, findUser (reviewApplication appId "approve" reason adminId now db).2
        app.user_id = some u ∧ u.middleman_requested = false) := by
  constructor
  · rw [review_reject_eq db appId adminId now reason app user hre hfind hpend
      huser]
    exact ⟨_, findUser_saveUser _ app.user_id user _ rfl huser, rfl⟩
  · rw [review_approve_eq db appId adminId now reason app user hfind hpend
      huser]
    exact ⟨_, findUser_saveUser _ app.user_id user _ rfl huser, rfl⟩

/-- Witness for C9: reviewing `app0` in `db0` either way clears the flag. -/
theorem C9_review_clears_requested_flag_witness :
    reasonMissing (some "incomplete") = false ∧
    findApp db0 1 = some app0 ∧ app0.status = AppStatus.pending ∧
    findUser db0 app0.user_id = some user0 ∧
    ((∃ u, findUser
        (reviewApplication 1 "reject" (some "incomplete") 99 5 db0).2
        app0.user_id = some u ∧ u.middleman_requested = false) ∧
     (∃ u, findUser
        (reviewApplication 1 "approve" (some "incomplete") 99 5 db0).2
        app0.user_id = some u ∧ u.middleman_requested = false)) :=
  ⟨rfl, rfl, rfl, rfl,
   C9_review_clears_requested_flag db0 1 99 5 (some "incomplete") app0 user0
     rfl rfl rfl rfl⟩

/-- Claim C10: on approval, the role-history entry is built only after
`user.role` has been overwritten with `'middleman'`, so the appended entry
records `old_role = 'middleman'` (the newly assigned role), whatever role
the user held before. -/
theorem C10_role_history_old_role (db : DB) (appId adminId now : Nat)
    (reason : Option String) (app : MiddlemanApplication) (user : User)
    (hfind : findApp db appId = some app)
    (hpend : app.status = AppStatus.pending)
    (huser : findUser db app.user_id = some user) :
    ∃ u e, findUser (reviewApplication appId "approve" reason adminId now db).2
        app.user_id = some u ∧
      u.role_history = user.role_history ++ [e] ∧
      e.old_role = "middleman" ∧ e.new_role = "middleman" := by
  rw [review_approve_eq db appId adminId now reason app user hfind hpend huser]
  exact ⟨_, _, findUser_saveUser _ app.user_id user _ rfl huser, rfl, rfl, rfl⟩

/-- Witness for C10: approving `app0`, whose applicant's prior role is
`'user'`, still logs `old_role = 'middleman'`. -/
theorem C10_role_history_old_role_witness :
    findApp db0 1 = some app0 ∧ app0.status = AppStatus.pending ∧
    findUser db0 app0.user_id = some user0 ∧
    (∃ u e, findUser (reviewApplication 1 "approve" none 99 5 db0).2
        app0.user_id = some u ∧
      u.role_history = user0.role_history ++ [e] ∧
      e.old_role = "middleman" ∧ e.new_role = "middleman") :=
  ⟨rfl, rfl, rfl,
   C10_role_history_old_role db0 1 99 5 none app0 user0 rfl rfl rfl⟩

/-! ## Helper lemmas for the one-pending-application invariant (C7) -/

/-- A non-pending application never satisfies the pending filter. -/
theorem isPendingFor_false_of_status (uid : Nat) (a : MiddlemanApplication)
    (ha : a.status ≠ AppStatus.pending) : isPendingFor uid a = false := by
  simp [isPendingFor, ha]

/-- Saving a user record does not change any pending-application count. -/
theorem pendingCount_saveUser (db : DB) (u : User) (uid : Nat) :
    pendingCount (saveUser db u) uid = pendingCount db uid := rfl

/-- Saving a non-pending application cannot increase a pending count. -/
theorem pendingCount_saveApp_le (db : DB) (a : MiddlemanApplication)
    (ha : a.status ≠ AppStatus.pending) (uid : Nat) :
    pendingCount (saveApp db a) uid ≤ pendingCount db uid := by
  show List.countP (isPendingFor uid)
      (db.applications.map (fun x => if x.id == a.id then a else x)) ≤
    List.countP (isPendingFor uid) db.applications
  rw [List.countP_map]
  apply List.countP_mono_left
  intro x hx hpx
  by_cases hxa : (x.id == a.id) = true
  · exfalso
    have hpa : isPendingFor uid a = true := by
      simpa [Function.comp, hxa] using hpx
    rw [isPendingFor_false_of_status uid a ha] at hpa
    exact Bool.false_ne_true hpa
  · simpa [Function.comp, hxa] using hpx

/-- `submitApplication` preserves the one-pending-application invariant. -/
theorem submit_preserves_atMostOnePending (db : DB) (userId : Nat)
    (experience availability why_middleman : String)
    (referral_codes external_links preferred_trade_types : Option String)
    (documents : List Nat) (newId : Nat)
    (hinv : atMostOnePending db) :
    atMostOnePending (submitApplication userId experience availability
      why_middleman referral_codes external_links preferred_trade_types
      documents newId db).2 := by
  cases hp : hasPendingApplication db userId with
  | true =>
    unfold submitApplication
    rw [if_pos hp]
    exact hinv
  | false =>
    by_cases hv : experience = "" ∨ availability = "" ∨ why_middleman = ""
    · unfold submitApplication
      rw [if_neg (by simp [hp]), if_pos hv]
      exact hinv
    · unfold submitApplication
      rw [if_neg (by simp [hp]), if_neg hv]
      intro uid
      show List.countP (isPendingFor uid) (db.applications ++
        [{
           id := newId, user_id := userId, experience := experience,
           availability := availability, why_middleman := why_middleman,
           referral_codes := referral_codes,
           external_links := splitTrim external_links,
           preferred_trade_types := splitTrim preferred_trade_types,
           documents := documents, status := .pending, reviewed_by := none,
           reviewed_date := none, rejection_reason := none }]) ≤ 1
      rw [List.countP_append]
      have h0 : ∀ x ∈ db.applications, ¬ isPendingFor userId x = true :=
        List.any_eq_false.mp hp
      by_cases huid : uid = userId
      · subst huid
        rw [List.countP_eq_zero.mpr h0]
        simp [isPendingFor]
      · have huid' : ¬ (userId = uid) := fun h => huid h.symm
        have h1 : List.countP (isPendingFor uid)
            [({
               id := newId, user_id := userId, experience := experience,
               availability := availability, why_middleman := why_middleman,
               referral_codes := referral_codes,
               external_links := splitTrim external_links,
               preferred_trade_types := splitTrim preferred_trade_types,
               documents := documents, status := .pending,
               reviewed_by := none, reviewed_date := none,
               rejection_reason := none } : MiddlemanApplication)] = 0 := by
          simp [isPendingFor, huid']
        rw [h1]
        simpa using hinv uid

/-- `reviewApplication` preserves the one-pending-application invariant: it
only ever moves one application out of the pending state. -/
theorem review_preserves_atMostOnePending (db : DB)
    (appId adminId now : Nat) (action : String) (reason : Option String)
    (hinv : atMostOnePending db) :
    atMostOnePending (reviewApplication appId action reason adminId now db).2
    := by
  by_cases hact : action = "approve" ∨ action = "reject"
  · by_cases hre : action = "reject" ∧ reasonMissing reason = true
    · obtain ⟨ha, hr⟩ := hre
      subst ha
      rw [review_no_reason_eq db appId adminId now reason hr]
      exact hinv
    · cases hfind : findApp db appId with
      | none =>
        rw [review_app_missing_eq db appId adminId now action reason hact
          hre hfind]
        exact hinv
      | some app =>
        by_cases hpend : app.status = AppStatus.pending
        · rcases hact with ha | ha <;> subst ha
          · cases huser : findUser db app.user_id with
            | none =>
              rw [review_approve_user_missing_eq db appId adminId now
                reason app hfind hpend huser]
              intro uid
              exact le_trans (pendingCount_saveApp_le db _ (by simp) uid)
                (hinv uid)
            | some user =>
              rw [review_approve_eq db appId adminId now reason app user
                hfind hpend huser]
              intro uid
              exact le_trans (pendingCount_saveApp_le db _ (by simp) uid)
                (hinv uid)
          · have hre' : reasonMissing reason = false := by
              cases h : reasonMissing reason
              · rfl
              · exact absurd ⟨rfl, h⟩ hre
            cases huser : findUser db app.user_id with
            | none =>
              rw [review_reject_user_missing_eq db appId adminId now
                reason app hre' hfind hpend huser]
              intro uid
              exact le_trans (pendingCount_saveApp_le db _ (by simp) uid)
                (hinv uid)
            | some user =>
              rw [review_reject_eq db appId adminId now reason app user
                hre' hfind hpend huser]
              intro uid
              exact le_trans (pendingCount_saveApp_le db _ (by simp) uid)
                (hinv uid)
        · rw [review_conflict_eq db appId adminId now action reason app
            hfind hpend hact hre]
          exact hinv
  · rw [review_invalid_eq db appId adminId now action reason hact]
    exact hinv

/-- Claim C7: the predicate "each user has at most one pending middleman
application" is preserved by every operation: `submitApplication` answers
400 and creates nothing when the caller already has a pending application,
and both `submitApplication` and `reviewApplication` keep the invariant. -/
theorem C7_one_pending_invariant (db : DB) (userId : Nat)
    (experience availability why_middleman : String)
    (referral_codes external_links preferred_trade_types : Option String)
    (documents : List Nat) (newId : Nat)
    (appId adminId now : Nat) (action : String) (reason : Option String)
    (hinv : atMostOnePending db) :
    (hasPendingApplication db userId = true →
      submitApplication userId experience availability why_middleman
        referral_codes external_links preferred_trade_types documents newId
        db =
      (.badRequest "You already have a pending middleman application", db)) ∧
    atMostOnePending (submitApplication userId experience availability
      why_middleman referral_codes external_links preferred_trade_types
      documents newId db).2 ∧
    atMostOnePending (reviewApplication appId action reason adminId now db).2
    := by
  refine ⟨?_,
    submit_preserves_atMostOnePending db userId experience availability
      why_middleman referral_codes external_links preferred_trade_types
      documents newId hinv,
    review_preserves_atMostOnePending db appId adminId now action reason
      hinv⟩
  intro hp
  unfold submitApplication
  rw [if_pos hp]

/-- Witness for C7: a database with no applications, one submission and one
review call. -/
theorem C7_one_pending_invariant_witness :
    atMostOnePending db3 ∧
    ((hasPendingApplication db3 10 = true →
       submitApplication 10 "exp" "eves" "help" none none none [] 4 db3 =
       (.badRequest "You already have a pending middleman application",
        db3)) ∧
     atMostOnePending
       (submitApplication 10 "exp" "eves" "help" none none none [] 4 db3).2 ∧
     atMostOnePending (reviewApplication 1 "approve" none 99 5 db3).2) :=
  ⟨fun uid => by simp [pendingCount, db3],
   C7_one_pending_invariant db3 10 "exp" "eves" "help" none none none [] 4
     1 99 5 "approve" none (fun uid => by simp [pendingCount, db3])⟩
